import Mathlib

/-!
Shallow embedding of the gbackup repository (gbackup.py, glbackup.py,
gbackup_async.py): a backup utility that enumerates GitLab/GitHub projects,
triggers server-side exports, polls their status at a fixed interval and
downloads the resulting archives to timestamped paths.

The embedding models REST responses as oracle functions (streams of status
strings), the filesystem as an association list, and the per-script control
flow as fuel-based recursion faithful to the Python loops.
-/

namespace GBackup

/-- `GITLAB_EXPORT_FINISHED_STATUS = "finished"` (gbackup.py line 11,
glbackup.py line 8 as `EXPORT_FINISHED_STATUS`). -/
def GITLAB_EXPORT_FINISHED_STATUS : String := "finished"

/-- `EXPORT_WAIT_TIME = 2` (gbackup.py line 12, gbackup_async.py line 19);
glbackup.py hardcodes the literal 2 at line 56. -/
def EXPORT_WAIT_TIME : Nat := 2

/-- A GitLab/GitHub project as the scripts use it: an id plus the
namespaced path used to build the destination directory. -/
structure Project where
  id : Nat
  path : String
  deriving DecidableEq, Repr

/-! ## Synchronous GitLab poll loop

`gl_download_project` (gbackup.py lines 74-94) / `download_project`
(glbackup.py lines 51-69):

    export.refresh()
    while export.export_status != GITLAB_EXPORT_FINISHED_STATUS:
        time.sleep(EXPORT_WAIT_TIME)
        export.refresh()

The sequence of statuses returned by successive `refresh()` calls is an
oracle `s : Nat → String` (`s i` is the status observed by the `i`-th
check, 0-indexed). The loop is embedded with fuel; `syncLoop f i s`
returns `some (c, w)` when the loop exits within `f` further checks,
where `c` is the total number of status checks issued and `w` the number
of `time.sleep(EXPORT_WAIT_TIME)` calls (one before every re-check). -/
def syncLoop : Nat → Nat → (Nat → String) → Option (Nat × Nat)
  | 0, _, _ => none
  | f + 1, i, s =>
    if s i = GITLAB_EXPORT_FINISHED_STATUS then some (i + 1, i)
    else syncLoop f (i + 1) s

/-- The poll loop of `gl_download_project`, started at the first
`export.refresh()`. -/
def syncPoll (f : Nat) (s : Nat → String) : Option (Nat × Nat) :=
  syncLoop f 0 s

/-- The synchronous poll loop terminates on the status stream `s`. -/
def syncPollTerminates (s : Nat → String) : Prop :=
  ∃ f r, syncPoll f s = some r

/-- A status stream whose every element is the terminal status `failed`. -/
def constFailed : Nat → String := fun _ => "failed"

/-! ## Asynchronous GitLab poll-and-download

`check_export_status` (gbackup_async.py lines 95-103) returns the export
status string on a 200 response and `None` otherwise, so one status check
is an `Option String`; the stream of successive check results is
`s : Nat → Option String`.

`download_gitlab_export` (gbackup_async.py lines 106-128):

    status = await check_export_status(session, project_id)
    while status != "finished":
        await asyncio.sleep(EXPORT_WAIT_TIME)
        status = await check_export_status(session, project_id)
        if status is None:
            print(f"Unable to check status, not downloading ...")
            return
    ...download...

Note the `None` test sits after the re-check inside the loop body: a
`None` from the initial check is *not* inspected before the loop re-polls
once more. -/
inductive GlOutcome where
  /-- The loop observed `finished` and the archive download was issued;
  the argument is the total number of status checks made. -/
  | downloaded (checks : Nat)
  /-- A re-check inside the loop returned `None`: the cycle is abandoned
  with no download; the argument is the total number of status checks. -/
  | abandoned (checks : Nat)
  /-- The modelling fuel ran out with the loop still polling. -/
  | fuelOut
  deriving DecidableEq, Repr

/-- One unfolding per loop iteration: at index `i` the current status is
`s i`; if it is `finished` the loop exits and downloads, otherwise the
coroutine sleeps `EXPORT_WAIT_TIME`, re-checks (`s (i+1)`), returns if
that is `None`, and loops. -/
def glLoop : Nat → Nat → (Nat → Option String) → GlOutcome
  | 0, _, _ => .fuelOut
  | f + 1, i, s =>
    if s i = some GITLAB_EXPORT_FINISHED_STATUS then .downloaded (i + 1)
    else
      match s (i + 1) with
      | none => .abandoned (i + 2)
      | some _ => glLoop f (i + 1) s

/-- `download_gitlab_export` from its initial `check_export_status`. -/
def glDownloadExport (f : Nat) (s : Nat → Option String) : GlOutcome :=
  glLoop f 0 s

/-- A check-result stream whose every element is `some "failed"`. -/
def constFailedOpt : Nat → Option String := fun _ => some "failed"

/-! ## GitHub migration poll

`gh_user_migration` (gbackup.py lines 148-182):

    status = migration.get_status()
    while status in ("pending", "exporting"):
        time.sleep(EXPORT_WAIT_TIME)
        status = migration.get_status()
    try:
        if status == "failed":
            log.error(...); return
        assert status == "exported", ...
        ...fetch archive_url, write file...
    except Exception as e:
        log.error(...)

`t i` is the status returned by the `i`-th `get_status()` call. -/
inductive GhOutcome where
  /-- Terminal status was `exported`; the archive was fetched and the
  artifact file written. Argument: total number of status checks. -/
  | archived (checks : Nat)
  /-- Terminal status was `failed`: logged and returned, no download and
  no artifact file. -/
  | skippedFailed (checks : Nat)
  /-- Terminal status was neither `failed` nor `exported`: the `assert`
  raises, the `except` block logs it; no download, no artifact. -/
  | unexpectedStatus (checks : Nat)
  /-- Modelling fuel ran out with the loop still polling. -/
  | fuelOut
  deriving DecidableEq, Repr

/-- The poll loop plus the terminal-status dispatch of
`gh_user_migration`. -/
def ghLoop : Nat → Nat → (Nat → String) → GhOutcome
  | 0, _, _ => .fuelOut
  | f + 1, i, t =>
    if t i = "pending" ∨ t i = "exporting" then ghLoop f (i + 1) t
    else if t i = "failed" then .skippedFailed (i + 1)
    else if t i = "exported" then .archived (i + 1)
    else .unexpectedStatus (i + 1)

/-- `gh_user_migration` polling from its first `get_status()`. -/
def ghMigration (f : Nat) (t : Nat → String) : GhOutcome :=
  ghLoop f 0 t

/-! ## Timestamped artifact names and the filesystem

Every variant names the artifact `time.strftime("%d-%b-%Y-%H-%M.tar.gz")`
(gbackup.py lines 89 and 176, glbackup.py line 64, gbackup_async.py
line 135) and opens it with mode `wb`/`wb+`, which truncates any existing
file at that path. -/

/-- The wall-clock fields `strftime` reads (we carry seconds to tell two
run instants apart even though `%d-%b-%Y-%H-%M` does not render them). -/
structure Tm where
  day : Nat
  month : Nat
  year : Nat
  hour : Nat
  minute : Nat
  second : Nat
  deriving DecidableEq, Repr

/-- `%b`: abbreviated month name. -/
def monthAbbrev : Nat → String
  | 1 => "Jan" | 2 => "Feb" | 3 => "Mar" | 4 => "Apr"
  | 5 => "May" | 6 => "Jun" | 7 => "Jul" | 8 => "Aug"
  | 9 => "Sep" | 10 => "Oct" | 11 => "Nov" | 12 => "Dec"
  | _ => ""

/-- Zero padding to two digits (`%d`, `%H`, `%M`). -/
def pad2 (n : Nat) : String :=
  if n < 10 then "0" ++ toString n else toString n

/-- `time.strftime("%d-%b-%Y-%H-%M.tar.gz")` at instant `t`. -/
def artifactName (t : Tm) : String :=
  pad2 t.day ++ "-" ++ monthAbbrev t.month ++ "-" ++ toString t.year ++ "-" ++
    pad2 t.hour ++ "-" ++ pad2 t.minute ++ ".tar.gz"

/-- The destination tree: a list of files, each keyed by its directory
path (already joined from backup_dir/section/project pieces) and file
name, carrying an abstract content tag. -/
abbrev FS := List ((String × String) × Nat)

/-- `open(backup_file, "wb")` followed by writing `content`: creates the
file, truncating (replacing) any existing file with the same path. -/
def writeWb (fs : FS) (dir name : String) (content : Nat) : FS :=
  fs.filter (fun e => e.1 ≠ (dir, name)) ++ [((dir, name), content)]

/-- One backup run of one project: mkdir (no filesystem effect in this
model), then write the archive under the strftime name for the run"s
start instant `t`. -/
def runBackupOnce (fs : FS) (dir : String) (t : Tm) (content : Nat) : FS :=
  writeWb fs dir (artifactName t) content

/-- The artifact files present for project directory `dir`. -/
def filesIn (fs : FS) (dir : String) : List (String × Nat) :=
  fs.filterMap (fun e => if e.1.1 = dir then some (e.1.2, e.2) else none)

/-! ## Project enumeration

`gl_get_projects` (gbackup.py lines 97-118):

    projects = []
    if "group" in config:
        for group_name in config["group"].split():
            group = gl.groups.get(group_name)
            projects.extend(group.projects.list())
    if "user" in config:
        for username in config["user"].split():
            user = gl.users.list(username=username)[0]
            projects.extend(user.projects.list())
    return projects
-/

/-- Helper for `pySplit`: walk the characters accumulating the current
word (reversed); whitespace closes a word, empty words are dropped. -/
def splitGo : List Char → List Char → List String
  | [], [] => []
  | [], acc => [String.mk acc.reverse]
  | c :: cs, acc =>
    if c.isWhitespace then
      match acc with
      | [] => splitGo cs []
      | _ => String.mk acc.reverse :: splitGo cs []
    else splitGo cs (c :: acc)

/-- Python `str.split()` with no argument: split on runs of whitespace,
discarding empty words. -/
def pySplit (s : String) : List String := splitGo s.data []

/-- The GitLab API surface `gl_get_projects` touches, as oracles:
`groupProjects g` is what `gl.groups.get(g).projects.list()` returns,
`resolveUser u` the id of `gl.users.list(username=u)[0]`, and
`userProjects uid` what the `projects.list()` of that user object returns. -/
structure GlEnv where
  groupProjects : String → List Project
  resolveUser : String → Nat
  userProjects : Nat → List Project

/-- Calls issued while enumerating: project-listing calls
(`*.projects.list()`) and user resolutions (`gl.users.list(username=..)`). -/
structure EnumCalls where
  listCalls : Nat
  userResolveCalls : Nat
  deriving DecidableEq, Repr

/-- The `group` loop of `gl_get_projects`: one `groups.get` +
`projects.list()` per group name, results appended in order. -/
def enumGroups (env : GlEnv) : List String → List Project × Nat
  | [] => ([], 0)
  | g :: gs =>
    (env.groupProjects g ++ (enumGroups env gs).1, (enumGroups env gs).2 + 1)

/-- The `user` loop of `gl_get_projects`: one user resolution and one
`projects.list()` per username, results appended in order. -/
def enumUsers (env : GlEnv) : List String → List Project × Nat × Nat
  | [] => ([], 0, 0)
  | u :: us =>
    (env.userProjects (env.resolveUser u) ++ (enumUsers env us).1,
     (enumUsers env us).2.1 + 1, (enumUsers env us).2.2 + 1)

/-- `gl_get_projects` for a config whose `group` and `user` entries are
the raw strings `g?` and `u?` (absent key = `none`): group results first,
then user results, concatenated without deduplication. -/
def glGetProjects (env : GlEnv) (g? u? : Option String) :
    List Project × EnumCalls :=
  let gp := match g? with
    | none => (([] : List Project), 0)
    | some gs => enumGroups env (pySplit gs)
  let up := match u? with
    | none => (([] : List Project), 0, 0)
    | some us => enumUsers env (pySplit us)
  (gp.1 ++ up.1, ⟨gp.2 + up.2.1, up.2.2⟩)

/-! ## Per-project iteration in `backup_gitlab`

`backup_gitlab` (gbackup.py lines 121-131):

    gl = gl_get_instance(config)
    for project in gl_get_projects(gl, config):
        gl_download_project(project, config, gl, section)

There is no try/except in this loop: an exception raised by
`gl_download_project` propagates out of `backup_gitlab`. `dl p` is the
exception (if any) that downloading project `p` raises. The result is
the list of projects whose download was attempted, paired with the
exception that escaped the loop, if one did. -/
def backupGitlab (dl : Project → Option String) :
    List Project → List Project × Option String
  | [] => ([], none)
  | p :: ps =>
    match dl p with
    | some e => ([p], some e)
    | none => (p :: (backupGitlab dl ps).1, (backupGitlab dl ps).2)

/-! ## The orchestrator `main` of gbackup.py (lines 201-224)

    config = get_config()
    if not config:
        log.error("No config file. Exiting.")
        exit(1)
    SECTION_TO_UTILITY maps "gitlab" and "github" to the two backup functions
    for section_name in config.sections():
        section = config[section_name]
        if section["type"] not in SECTION_TO_UTILITY:
            log.error(...); continue
        try:
            SECTION_TO_UTILITY[section["type"]](section, section_name)
        except Exception as e:
            log.error(...)

`section["type"]` raises an uncaught `KeyError` when the section (and
the DEFAULT fallback) has no `type` key; the lookup sits before, and
outside of, the try/except that wraps only the backup call. -/

/-- One config-file section as `main` reads it: its name and the result
of the `section["type"]` lookup (`none` = the key is absent and the
lookup raises `KeyError`). -/
structure IniSection where
  name : String
  typeKey : Option String
  deriving DecidableEq, Repr

/-- How the process run ends. `exit1` is the explicit `exit(1)` on a
missing config file; `uncaughtKeyError` is the interpreter dying on the
`KeyError` from `section["type"]`; `exit0` is falling off the end of
`main`. -/
inductive RunEnd where
  | exit0
  | exit1
  | uncaughtKeyError
  deriving DecidableEq, Repr

/-- The operating-system exit status of each run ending (an uncaught
Python exception terminates the interpreter with status 1). -/
def osStatus : RunEnd → Nat
  | .exit0 => 0
  | .exit1 => 1
  | .uncaughtKeyError => 1

/-- The per-section loop of `main`. `backup s` is the exception (if any)
that the backup utility of the section raises; such exceptions are caught by
the per-target try/except and logged. Returns how the loop ends and the
log of backup calls made: `(section name, caught exception?)` in order. -/
def gbLoop (backup : IniSection → Option String) :
    List IniSection → RunEnd × List (String × Option String)
  | [] => (.exit0, [])
  | s :: rest =>
    match s.typeKey with
    | none => (.uncaughtKeyError, [])
    | some t =>
      if t = "gitlab" ∨ t = "github" then
        ((gbLoop backup rest).1, (s.name, backup s) :: (gbLoop backup rest).2)
      else
        gbLoop backup rest

/-- `main`: exit(1) when `get_config()` found no config file, otherwise
run the per-section loop. -/
def gbMain (config? : Option (List IniSection))
    (backup : IniSection → Option String) :
    RunEnd × List (String × Option String) :=
  match config? with
  | none => (.exit1, [])
  | some secs => gbLoop backup secs

/-! ## The `main` of the pipelined variant (gbackup_async.py lines 138-163)

    for project in sorted(projects, key=lambda x: x["statistics"]["repository_size"], reverse=True):
        if await start_gitlab_export(gl, project.get("id"), ...):
            migrations.append(project)
    migrations.reverse()
    for project in migrations:
        export_path = get_project_export_path(project, config)
        await download_gitlab_export(gl, project.get("id"), ...)
-/

/-- A project as the async script sees it, with the
`statistics.repository_size` field used as the sort key. -/
structure AProject where
  id : Nat
  path : String
  repositorySize : Nat
  deriving DecidableEq, Repr

/-- The ordering `sorted(..., reverse=True)` uses: larger (or equal)
repository size first. -/
def sizeGE (a b : AProject) : Prop := b.repositorySize ≤ a.repositorySize

instance : DecidableRel sizeGE := fun _ b => Nat.decLe b.repositorySize _

instance : IsTotal AProject sizeGE :=
  ⟨fun a b => (Nat.le_total b.repositorySize a.repositorySize).imp id id⟩

instance : IsTrans AProject sizeGE :=
  ⟨fun _ _ _ hab hbc => Nat.le_trans hbc hab⟩

/-- Python"s `sorted` with `reverse=True` on the repository size: a
stable sort putting the largest repository first. -/
def sortDescBySize (ps : List AProject) : List AProject :=
  List.insertionSort sizeGE ps

/-- Observable REST actions of the pipelined `main`, in program order. -/
inductive Event where
  | trigger (p : AProject)
  | download (p : AProject)
  deriving DecidableEq, Repr

/-- The first loop of the async `main`: trigger an export per project in
the given order; `acc p` says whether the trigger returned 202 Accepted,
in which case the project is appended to `migrations`. -/
def triggerPhase (acc : AProject → Bool) :
    List AProject → List Event × List AProject
  | [] => ([], [])
  | p :: ps =>
    (.trigger p :: (triggerPhase acc ps).1,
     if acc p then p :: (triggerPhase acc ps).2 else (triggerPhase acc ps).2)

/-- The async `main`: trigger all exports largest-first, reverse the
accepted list, then download each accepted project in that order. -/
def asyncMain (acc : AProject → Bool) (projects : List AProject) :
    List Event :=
  (triggerPhase acc (sortDescBySize projects)).1 ++
    (triggerPhase acc (sortDescBySize projects)).2.reverse.map .download

/-- The download order the async `main` uses: the accepted projects,
smallest repository first. -/
def downloadOrder (acc : AProject → Bool) (projects : List AProject) :
    List AProject :=
  ((sortDescBySize projects).filter acc).reverse

/-! ## Concrete status streams used by the claims and witnesses -/

/-- The status sequence pending, pending, exporting, then finished. -/
def s5 : Nat → String := fun n =>
  if n = 0 then "pending" else if n = 1 then "pending"
  else if n = 2 then "exporting" else GITLAB_EXPORT_FINISHED_STATUS

/-- The GitHub status sequence pending, pending, exporting, exported. -/
def s5gh : Nat → String := fun n =>
  if n = 0 then "pending" else if n = 1 then "pending"
  else if n = 2 then "exporting" else "exported"

/-- The check-result stream of `s5` with every check succeeding. -/
def s5opt : Nat → Option String := fun n => some (s5 n)

/-- A GitHub status sequence reaching the terminal status `failed`. -/
def tPendingFailed : Nat → String := fun n =>
  if n = 0 then "pending" else "failed"

/-- A check-result stream whose initial check fails (no usable status)
and whose later checks report `finished`. -/
def noneFirst : Nat → Option String := fun n =>
  if n = 0 then none else some GITLAB_EXPORT_FINISHED_STATUS

/-- A check-result stream: one usable non-terminal status, then a failed
check. -/
def pendingThenNone : Nat → Option String := fun n =>
  if n = 0 then some "pending" else none

/-! ## Concrete projects, sections and instants used by the claims -/

/-- A first concrete project. -/
def p1 : Project := ⟨1, "acme/a"⟩

/-- A second concrete project, sibling of `p1` in the same target. -/
def p2 : Project := ⟨2, "acme/b"⟩

/-- A download oracle that raises on project id 1 and succeeds elsewhere. -/
def dlBoom : Project → Option String := fun p =>
  if p.id = 1 then some "boom" else none

/-- A gitlab-typed config section. -/
def secGitlabA : IniSection := ⟨"gitlab.com", some "gitlab"⟩

/-- Another gitlab-typed config section. -/
def secGitlabB : IniSection := ⟨"gitlab.example", some "gitlab"⟩

/-- A config section with no `type` key. -/
def secNoType : IniSection := ⟨"broken", none⟩

/-- A backup oracle that raises for every section. -/
def backupBoom : IniSection → Option String := fun _ => some "boom"

/-- A backup oracle that succeeds for every section. -/
def backupCalm : IniSection → Option String := fun _ => none

/-- A project directory path for the artifact claims. -/
def dirAcme : String := "/backups/acme/acme-a"

/-- A run instant: 07-Feb-2021-10-30, second 5. -/
def tmA : Tm := ⟨7, 2, 2021, 10, 30, 5⟩

/-- A later run instant in the same minute: 07-Feb-2021-10-30, second 40. -/
def tmB : Tm := ⟨7, 2, 2021, 10, 30, 40⟩

/-- A run instant one minute after `tmA`: 07-Feb-2021-10-31. -/
def tmC : Tm := ⟨7, 2, 2021, 10, 31, 5⟩

/-- Result of running a fallible piece of Python. -/
inductive PyOutcome (α : Type) where
  | ok (val : α)
  | attributeError
  deriving DecidableEq, Repr

/-- `get_projects` of glbackup.py (lines 72-86), the single-name variant:

    projects = []
    if "group" in config:
        mm_group = gl.groups.get(config["group"])
        projects.extend(mm_group.projects.list())
    if "user" in config:
        user = gl.users.list(username=config["user"])
        projects.extend(user.projects.list())
    return projects

`gl.users.list(...)` returns a list of user objects; unlike gbackup.py
(which indexes `[0]`), this variant reads `.projects` directly off that
list, so the user branch raises `AttributeError` after the resolution
call and before any per-user project-listing call. -/
def glbackupGetProjects (env : GlEnv) (g? u? : Option String) :
    PyOutcome (List Project) :=
  let ps := match g? with
    | none => ([] : List Project)
    | some g => [] ++ env.groupProjects g
  match u? with
  | none => .ok ps
  | some _ => .attributeError

/-- A concrete GitLab API environment for evaluating the enumerators. -/
def envDemo : GlEnv := ⟨fun _ => [p1], fun _ => 7, fun _ => [p2]⟩

/-- A large async project. -/
def ap1 : AProject := ⟨1, "acme/a", 100⟩

/-- A small async project. -/
def ap2 : AProject := ⟨2, "acme/b", 5⟩

/-- A mid-sized async project. -/
def ap3 : AProject := ⟨3, "acme/c", 50⟩

/-- A concrete project list for the pipelined variant, in arrival order. -/
def aps : List AProject := [ap2, ap3, ap1]

/-- A trigger oracle rejecting project id 2 and accepting the rest. -/
def accNot2 : AProject → Bool := fun p => p.id != 2

/-! ## Lemmas about the synchronous poll loop -/

/-- When `syncLoop` exits, the last status checked was `finished`, one
sleep separated each pair of consecutive checks, and at least one check
was made past the start index. -/
theorem syncLoop_eq_some (f : Nat) : ∀ i s c w, syncLoop f i s = some (c, w) →
    s (c - 1) = GITLAB_EXPORT_FINISHED_STATUS ∧ w + 1 = c ∧ i < c := by
  induction f with
  | zero => intro i s c w h; simp [syncLoop] at h
  | succ f ih =>
    intro i s c w h
    rw [syncLoop] at h
    split at h
    · rename_i hfin
      simp only [Option.some.injEq, Prod.mk.injEq] at h
      obtain ⟨rfl, rfl⟩ := h
      simp [hfin]
    · have := ih (i + 1) s c w h
      exact ⟨this.1, this.2.1, by omega⟩

/-- A `finished` status `n` checks ahead lets `syncLoop` exit within
`n + 1` units of fuel. -/
theorem syncLoop_reaches (n : Nat) : ∀ i s,
    s (i + n) = GITLAB_EXPORT_FINISHED_STATUS →
    ∃ r, syncLoop (n + 1) i s = some r := by
  induction n with
  | zero =>
    intro i s h
    rw [syncLoop]
    simp only [Nat.add_zero] at h
    simp [h]
  | succ n ih =>
    intro i s h
    rw [syncLoop]
    split
    · exact ⟨_, rfl⟩
    · exact ih (i + 1) s (by rw [show i + 1 + n = i + (n + 1) by omega]; exact h)

/-- On the all-`failed` stream `syncLoop` never exits, whatever the fuel. -/
theorem syncLoop_constFailed (f : Nat) : ∀ i, syncLoop f i constFailed = none := by
  induction f with
  | zero => intro i; rfl
  | succ f ih =>
    intro i
    rw [syncLoop]
    split
    · rename_i h
      simp [constFailed, GITLAB_EXPORT_FINISHED_STATUS] at h
    · exact ih (i + 1)

/-! ## Lemmas about the asynchronous poll loop -/

/-- If the async loop downloads, the last status checked was `finished`. -/
theorem glLoop_downloaded (f : Nat) : ∀ i s c, glLoop f i s = .downloaded c →
    s (c - 1) = some GITLAB_EXPORT_FINISHED_STATUS := by
  induction f with
  | zero => intro i s c h; simp [glLoop] at h
  | succ f ih =>
    intro i s c h
    rw [glLoop] at h
    split at h
    · rename_i hfin
      cases h
      simpa using hfin
    · split at h
      · cases h
      · exact ih (i + 1) s c h

/-- On the all-`failed` stream the async loop neither downloads nor
abandons: it polls until the fuel runs out. -/
theorem glLoop_constFailedOpt (f : Nat) : ∀ i,
    glLoop f i constFailedOpt = .fuelOut := by
  induction f with
  | zero => intro i; rfl
  | succ f ih =>
    intro i
    rw [glLoop]
    split
    · rename_i h
      simp [constFailedOpt, GITLAB_EXPORT_FINISHED_STATUS] at h
    · exact ih (i + 1)

/-- If the first `n + 1` checks yield usable non-`finished` statuses and
check `n + 1` yields no usable status, the async loop abandons the cycle
right there, after exactly `n + 2` checks. -/
theorem glLoop_none_recheck (n : Nat) : ∀ f i s,
    (∀ j ≤ n, s (i + j) ≠ some GITLAB_EXPORT_FINISHED_STATUS) →
    (∀ j ≤ n, s (i + j) ≠ none) →
    s (i + n + 1) = none → n < f →
    glLoop f i s = .abandoned (i + n + 2) := by
  induction n with
  | zero =>
    intro f i s hfin hus hnone hf
    obtain ⟨f, rfl⟩ : ∃ g, f = g + 1 := ⟨f - 1, by omega⟩
    rw [glLoop]
    rw [if_neg (by simpa using hfin 0 (Nat.le_refl 0))]
    simp only [Nat.add_zero] at hnone
    rw [hnone]
  | succ n ih =>
    intro f i s hfin hus hnone hf
    obtain ⟨f, rfl⟩ : ∃ g, f = g + 1 := ⟨f - 1, by omega⟩
    rw [glLoop]
    rw [if_neg (by simpa using hfin 0 (Nat.zero_le _))]
    have h1 : s (i + 1) ≠ none := by
      have := hus 1 (by omega)
      simpa using this
    obtain ⟨st, hst⟩ : ∃ st, s (i + 1) = some st := by
      cases hsi : s (i + 1) with
      | none => exact absurd hsi h1
      | some st => exact ⟨st, rfl⟩
    rw [hst]
    have hf2 : n < f := by omega
    have := ih f (i + 1) s
      (fun j hj => by
        rw [show i + 1 + j = i + (j + 1) by omega]
        exact hfin (j + 1) (by omega))
      (fun j hj => by
        rw [show i + 1 + j = i + (j + 1) by omega]
        exact hus (j + 1) (by omega))
      (by rw [show i + 1 + n + 1 = i + (n + 1) + 1 by omega]; exact hnone)
      hf2
    have he : i + (n + 1) + 2 = i + 1 + n + 2 := by omega
    rw [he]
    exact this

/-! ## Lemmas about the GitHub migration poll -/

/-- If `gh_user_migration` downloads the archive, the terminal status it
observed was `exported`. -/
theorem ghLoop_archived (f : Nat) : ∀ i t c, ghLoop f i t = .archived c →
    t (c - 1) = "exported" := by
  induction f with
  | zero => intro i t c h; simp [ghLoop] at h
  | succ f ih =>
    intro i t c h
    rw [ghLoop] at h
    split at h
    · exact ih (i + 1) t c h
    · split at h
      · cases h
      · split at h
        · rename_i hexp
          cases h
          simpa using hexp
        · cases h

/-- If the first `n` statuses are pending/exporting and status `n` is
`failed`, `gh_user_migration` returns after `n + 1` checks without
downloading. -/
theorem ghLoop_failed (n : Nat) : ∀ f i t,
    (∀ j < n, t (i + j) = "pending" ∨ t (i + j) = "exporting") →
    t (i + n) = "failed" → n < f →
    ghLoop f i t = .skippedFailed (i + n + 1) := by
  induction n with
  | zero =>
    intro f i t hpe hfail hf
    obtain ⟨f, rfl⟩ : ∃ g, f = g + 1 := ⟨f - 1, by omega⟩
    rw [ghLoop]
    simp only [Nat.add_zero] at hfail
    rw [if_neg (by rw [hfail]; decide), if_pos hfail]
  | succ n ih =>
    intro f i t hpe hfail hf
    obtain ⟨f, rfl⟩ : ∃ g, f = g + 1 := ⟨f - 1, by omega⟩
    rw [ghLoop]
    rw [if_pos (by simpa using hpe 0 (by omega))]
    have hf2 : n < f := by omega
    have := ih f (i + 1) t
      (fun j hj => by
        rw [show i + 1 + j = i + (j + 1) by omega]
        exact hpe (j + 1) (by omega))
      (by rw [show i + 1 + n = i + (n + 1) by omega]; exact hfail)
      hf2
    have he : i + (n + 1) + 1 = i + 1 + n + 1 := by omega
    rw [he]
    exact this

/-! ## Claim theorems: polling -/

/-- C2: a download is attempted only once the polled status is terminal
and never on `failed`. In `download_gitlab_export` a download happens
only when the last polled status is `finished` and never on the
all-`failed` stream; in `gh_user_migration` a `failed` terminal status
returns without downloading and a download implies the terminal status
was `exported`. -/
theorem download_only_after_terminal (f c n : Nat)
    (s : Nat → Option String) (t : Nat → String) :
    (glLoop f 0 s = .downloaded c →
      s (c - 1) = some GITLAB_EXPORT_FINISHED_STATUS) ∧
    glDownloadExport f constFailedOpt ≠ .downloaded c ∧
    ((∀ j < n, t j = "pending" ∨ t j = "exporting") → t n = "failed" →
      n < f → ghMigration f t = .skippedFailed (n + 1)) ∧
    (ghMigration f t = .archived c → t (c - 1) = "exported") := by
  refine ⟨glLoop_downloaded f 0 s c, ?_, ?_, ghLoop_archived f 0 t c⟩
  · rw [glDownloadExport, glLoop_constFailedOpt]
    intro hcon
    cases hcon
  · intro hpe hfail hf
    have := ghLoop_failed n f 0 t (fun j hj => by simpa using hpe j hj)
      (by simpa using hfail) hf
    simpa [ghMigration] using this

/-- Witness for C2 at the concrete streams `s5opt` (finished at check 4),
`constFailedOpt`, `tPendingFailed` (failed at check 2) and `s5gh`
(exported at check 4). -/
theorem download_only_after_terminal_witness :
    s5opt (4 - 1) = some GITLAB_EXPORT_FINISHED_STATUS ∧
    glDownloadExport 10 constFailedOpt ≠ .downloaded 4 ∧
    ghMigration 10 tPendingFailed = .skippedFailed 2 ∧
    s5gh (4 - 1) = "exported" := by
  have h1 := download_only_after_terminal 10 4 1 s5opt tPendingFailed
  have h2 := download_only_after_terminal 10 4 1 s5opt s5gh
  exact ⟨h1.1 (by decide), h1.2.1,
    h1.2.2.1 (by decide) (by decide) (by decide), h2.2.2.2 (by decide)⟩

/-- C3 counterexample: the status stream that is `failed` at every check
contains a terminal status, yet the poll loop of `gl_download_project` /
`download_project` never terminates on it (it compares against
`finished` only), contradicting the claim that any sequence eventually
containing a terminal status makes the loop terminate. -/
theorem syncPoll_failed_stream_never_terminates :
    constFailed 0 = "failed" ∧ ¬ syncPollTerminates constFailed := by
  refine ⟨rfl, ?_⟩
  rintro ⟨f, r, h⟩
  rw [syncPoll, syncLoop_constFailed] at h
  cases h

/-- C3 (amended): the poller re-queries at the fixed 2-second interval
with no retry cap; the loop terminates exactly when the status
`finished` is observed — every stream eventually reaching `finished`
terminates, and on exit the last checked status is `finished` with one
sleep between consecutive checks. -/
theorem syncPoll_terminates_iff_finished (s : Nat → String) :
    EXPORT_WAIT_TIME = 2 ∧
    ((∃ n, s n = GITLAB_EXPORT_FINISHED_STATUS) → syncPollTerminates s) ∧
    (∀ f c w, syncPoll f s = some (c, w) →
      s (c - 1) = GITLAB_EXPORT_FINISHED_STATUS ∧ w + 1 = c) := by
  refine ⟨rfl, ?_, ?_⟩
  · rintro ⟨n, h⟩
    obtain ⟨r, hr⟩ := syncLoop_reaches n 0 s (by simpa using h)
    exact ⟨n + 1, r, hr⟩
  · intro f c w h
    have := syncLoop_eq_some f 0 s c w h
    exact ⟨this.1, this.2.1⟩

/-- Witness for C3 (amended) at the stream `s5`, which reaches
`finished` at check 4. -/
theorem syncPoll_terminates_iff_finished_witness :
    syncPollTerminates s5 ∧
    (s5 (4 - 1) = GITLAB_EXPORT_FINISHED_STATUS ∧ 3 + 1 = 4) := by
  have h := syncPoll_terminates_iff_finished s5
  exact ⟨h.2.1 ⟨3, by decide⟩, h.2.2 10 4 3 (by decide)⟩

/-- C5: on the status sequence pending, pending, exporting, finished the
poller issues exactly 4 status checks separated by 3 sleeps of the
configured `EXPORT_WAIT_TIME = 2` seconds and then downloads, in the
synchronous loop, the async loop and the GitHub loop alike. -/
theorem poll_four_checks_then_download :
    syncPoll 10 s5 = some (4, 3) ∧
    EXPORT_WAIT_TIME = 2 ∧
    glDownloadExport 10 s5opt = .downloaded 4 ∧
    ghMigration 10 s5gh = .archived 4 := by
  decide

/-- C6 counterexample: on the stream whose initial check yields no
usable status (`none`) and whose re-check yields `finished`,
`download_gitlab_export` does not abandon: it retries once more and then
downloads — the `None` test sits after the re-check inside the loop, so
an initial `None` is not fatal. -/
theorem none_first_check_not_fatal :
    noneFirst 0 = none ∧ glDownloadExport 3 noneFirst = .downloaded 2 := by
  decide

/-- C6 (amended): a check that yields no usable status is fatal when it
is a re-check inside the loop: after any run of usable non-`finished`
statuses, a `none` re-check makes `download_gitlab_export` abandon the
cycle at once — no further status checks and no download. -/
theorem none_recheck_fatal (f n : Nat) (s : Nat → Option String)
    (hfin : ∀ j ≤ n, s j ≠ some GITLAB_EXPORT_FINISHED_STATUS)
    (hus : ∀ j ≤ n, s j ≠ none)
    (hnone : s (n + 1) = none) (hf : n < f) :
    glDownloadExport f s = .abandoned (n + 2) ∧
    ∀ c, glDownloadExport f s ≠ .downloaded c := by
  have h := glLoop_none_recheck n f 0 s (by simpa using hfin)
    (by simpa using hus) (by simpa using hnone) hf
  have h0 : glDownloadExport f s = .abandoned (n + 2) := by
    rw [glDownloadExport, h]
    simp
  refine ⟨h0, ?_⟩
  intro c hcon
  rw [h0] at hcon
  cases hcon

/-- Witness for C6 (amended): one usable `pending` check, then a failed
check; the cycle is abandoned after exactly 2 checks. -/
theorem none_recheck_fatal_witness :
    glDownloadExport 1 pendingThenNone = .abandoned 2 :=
  (none_recheck_fatal 1 0 pendingThenNone (by decide) (by decide)
    (by decide) (by decide)).1

/-! ## Lemmas about the orchestrator loops -/

/-- In `backup_gitlab`, once a download raises, the exception leaves the
per-project loop: exactly the projects up to and including the failing
one were attempted, and the exception propagates. -/
theorem backupGitlab_aborts (dl : Project → Option String) (p : Project)
    (e : String) : ∀ ps qs, (∀ q ∈ ps, dl q = none) → dl p = some e →
    backupGitlab dl (ps ++ p :: qs) = (ps ++ [p], some e) := by
  intro ps
  induction ps with
  | nil =>
    intro qs h hp
    simp [backupGitlab, hp]
  | cons q ps ih =>
    intro qs h hp
    have hq : dl q = none := h q (by simp)
    simp only [List.cons_append, backupGitlab, hq, List.append_eq]
    rw [ih qs (fun r hr => h r (by simp [hr])) hp]

/-- When every section carries a `type` key the per-section loop of
`main` falls through to the end: the run ends in `exit0` whatever the
individual backups do. -/
theorem gbLoop_all_typed (backup : IniSection → Option String) :
    ∀ secs, (∀ s ∈ secs, s.typeKey ≠ none) →
    (gbLoop backup secs).1 = .exit0 := by
  intro secs
  induction secs with
  | nil => intro _; rfl
  | cons s rest ih =>
    intro h
    have hrest := ih (fun q hq => h q (by simp [hq]))
    cases hs : s.typeKey with
    | none => exact absurd hs (h s (by simp))
    | some t =>
      simp only [gbLoop, hs]
      split
      · simpa using hrest
      · exact hrest

/-- A section with no `type` key stops the per-section loop with the
uncaught `KeyError`: the backups logged are exactly those of the
sections before it, and nothing after it runs. -/
theorem gbLoop_keyerror (backup : IniSection → Option String)
    (bad : IniSection) (hbad : bad.typeKey = none) :
    ∀ pre rest, (∀ s ∈ pre, s.typeKey ≠ none) →
    (gbLoop backup (pre ++ bad :: rest)).1 = .uncaughtKeyError ∧
    (gbLoop backup (pre ++ bad :: rest)).2 = (gbLoop backup pre).2 := by
  intro pre
  induction pre with
  | nil =>
    intro rest h
    simp [gbLoop, hbad]
  | cons s pre ih =>
    intro rest h
    have hih := ih rest (fun q hq => h q (by simp [hq]))
    cases hs : s.typeKey with
    | none => exact absurd hs (h s (by simp))
    | some t =>
      simp only [List.cons_append, gbLoop, hs]
      split
      · simp [hih.1, hih.2]
      · exact hih

/-! ## Claim theorems: error granularity and exit codes -/

/-- C1 counterexample: in `backup_gitlab` an exception raised while
downloading the first project is not caught at the per-project level: it
propagates out of the loop and the sibling project `p2` of the same
target is never processed. -/
theorem project_exception_aborts_siblings :
    (backupGitlab dlBoom [p1, p2]).2 = some "boom" ∧
    p2 ∉ (backupGitlab dlBoom [p1, p2]).1 := by
  decide

/-- C1 (amended): an exception during one project aborts the remaining
projects of the same target — it is caught only at the per-target level
of `main`, where a target whose backup raises is logged and the next
target still runs, ending in exit0. -/
theorem exception_caught_per_target (dl : Project → Option String)
    (p : Project) (ps qs : List Project) (e : String)
    (s1 s2 : IniSection) (backup : IniSection → Option String) (e2 : String)
    (hdl : ∀ q ∈ ps, dl q = none) (hp : dl p = some e)
    (h1 : s1.typeKey = some "gitlab") (h2 : s2.typeKey = some "gitlab")
    (hb : backup s1 = some e2) :
    backupGitlab dl (ps ++ p :: qs) = (ps ++ [p], some e) ∧
    gbMain (some [s1, s2]) backup =
      (.exit0, [(s1.name, some e2), (s2.name, backup s2)]) := by
  refine ⟨backupGitlab_aborts dl p e ps qs hdl hp, ?_⟩
  simp [gbMain, gbLoop, h1, h2, hb]

/-- Witness for C1 (amended): `p1` raising leaves `p2` unattempted
inside one target, while a raising first target still lets the second
target run. -/
theorem exception_caught_per_target_witness :
    backupGitlab dlBoom [p1, p2] = ([p1], some "boom") ∧
    gbMain (some [secGitlabA, secGitlabB]) backupBoom =
      (.exit0, [("gitlab.com", some "boom"),
                ("gitlab.example", some "boom")]) := by
  have h := exception_caught_per_target dlBoom p1 [] [p2] "boom"
    secGitlabA secGitlabB backupBoom "boom"
    (by decide) (by decide) (by decide) (by decide) (by decide)
  exact ⟨h.1, h.2⟩

/-- C7 counterexample: a configuration is present and its first section
even backs up, yet the run does not exit 0 — the section lacking a
`type` key kills the process with an uncaught `KeyError` (operating
system status 1), contradicting `exit 0 in every other case`. -/
theorem missing_type_key_nonzero_exit :
    gbMain (some [secGitlabA, secNoType]) backupCalm =
      (.uncaughtKeyError, [("gitlab.com", none)]) ∧
    osStatus .uncaughtKeyError ≠ 0 := by
  decide

/-- C7 (amended): the process exits 1 when no configuration is found;
when a configuration is found and every section has a `type` key it
exits 0 regardless of how many individual backups failed; a section
missing `type` instead aborts the run with an uncaught KeyError. -/
theorem exit_codes_amended (secs : List IniSection)
    (backup : IniSection → Option String)
    (h : ∀ s ∈ secs, s.typeKey ≠ none) :
    (gbMain none backup).1 = .exit1 ∧
    osStatus (gbMain (some secs) backup).1 = 0 := by
  refine ⟨rfl, ?_⟩
  show osStatus (gbLoop backup secs).1 = 0
  rw [gbLoop_all_typed backup secs h]
  rfl

/-- Witness for C7 (amended): with one well-typed section whose backup
raises, the run still exits 0; with no config file it exits 1. -/
theorem exit_codes_amended_witness :
    (gbMain none backupBoom).1 = .exit1 ∧
    osStatus (gbMain (some [secGitlabA]) backupBoom).1 = 0 :=
  exit_codes_amended [secGitlabA] backupBoom (by decide)

/-- C10: a section lacking a `type` key makes the per-section loop raise
an uncaught KeyError at the `section["type"]` lookup, logging the
backups of the earlier sections only and aborting before any later
section runs; the try/except wraps only the backup call, which is why a
raising backup by itself still ends the loop in exit0. -/
theorem type_key_lookup_uncaught (backup : IniSection → Option String)
    (bad : IniSection) (pre rest : List IniSection)
    (hbad : bad.typeKey = none) (hpre : ∀ s ∈ pre, s.typeKey ≠ none) :
    (gbMain (some (pre ++ bad :: rest)) backup).1 = .uncaughtKeyError ∧
    (gbMain (some (pre ++ bad :: rest)) backup).2 = (gbLoop backup pre).2 ∧
    ∀ sec : IniSection, sec.typeKey = some "gitlab" →
      (gbLoop backup [sec]).1 = .exit0 := by
  have h := gbLoop_keyerror backup bad hbad pre rest hpre
  refine ⟨h.1, h.2, ?_⟩
  intro sec hsec
  simp [gbLoop, hsec]

/-- Witness for C10: the untyped middle section aborts the run after the
backup of the first section, the third section never runs, and a raising
backup alone would not have ended the loop abnormally. -/
theorem type_key_lookup_uncaught_witness :
    (gbMain (some [secGitlabA, secNoType, secGitlabB]) backupBoom).1 =
      .uncaughtKeyError ∧
    (gbMain (some [secGitlabA, secNoType, secGitlabB]) backupBoom).2 =
      (gbLoop backupBoom [secGitlabA]).2 ∧
    (gbLoop backupBoom [secGitlabA]).1 = .exit0 := by
  have h := type_key_lookup_uncaught backupBoom secNoType [secGitlabA]
    [secGitlabB] (by decide) (by decide)
  exact ⟨h.1, h.2.1, h.2.2 secGitlabA (by decide)⟩

/-! ## Claim theorems: timestamped artifacts -/

/-- C4 counterexample: two successive runs at distinct instants within
the same minute render the same `%d-%b-%Y-%H-%M` artifact name, so the
second run truncates and replaces the first artifact: one file remains,
holding the second run, not two distinct files. -/
theorem same_minute_second_run_overwrites :
    tmA ≠ tmB ∧
    artifactName tmA = artifactName tmB ∧
    filesIn (runBackupOnce (runBackupOnce [] dirAcme tmA 1) dirAcme tmB 2)
      dirAcme = [(artifactName tmB, 2)] := by
  decide

/-- C4 (amended): two successive runs produce two distinct artifact
files for the project, the second never overwriting the first, exactly
when their start instants render to different minute-granularity names;
both files then persist with their own contents. -/
theorem distinct_names_no_overwrite (dir : String) (ta tb : Tm)
    (ca cb : Nat) (h : artifactName ta ≠ artifactName tb) :
    runBackupOnce (runBackupOnce [] dir ta ca) dir tb cb =
      [((dir, artifactName ta), ca), ((dir, artifactName tb), cb)] ∧
    filesIn (runBackupOnce (runBackupOnce [] dir ta ca) dir tb cb) dir =
      [(artifactName ta, ca), (artifactName tb, cb)] := by
  have hne : ((dir, artifactName ta) : String × String) ≠
      (dir, artifactName tb) := by
    intro hcon
    exact h (congrArg Prod.snd hcon)
  constructor
  · simp [runBackupOnce, writeWb, hne]
  · simp [runBackupOnce, writeWb, filesIn, hne]

/-- Witness for C4 (amended): runs at 10:30 and 10:31 keep two distinct
artifacts, the first preserved under the second run. -/
theorem distinct_names_no_overwrite_witness :
    runBackupOnce (runBackupOnce [] dirAcme tmA 1) dirAcme tmC 2 =
      [((dirAcme, artifactName tmA), 1), ((dirAcme, artifactName tmC), 2)] ∧
    filesIn (runBackupOnce (runBackupOnce [] dirAcme tmA 1) dirAcme tmC 2)
      dirAcme = [(artifactName tmA, 1), (artifactName tmC, 2)] :=
  distinct_names_no_overwrite dirAcme tmA tmC 1 2 (by decide)

/-! ## Lemmas about enumeration and the pipelined ordering -/

/-- The group loop returns the concatenation of the group listings in
order, with one listing call per group name. -/
theorem enumGroups_eq (env : GlEnv) : ∀ l, enumGroups env l =
    ((l.map env.groupProjects).flatten, l.length) := by
  intro l
  induction l with
  | nil => rfl
  | cons g gs ih => simp [enumGroups, ih]

/-- The user loop returns the concatenation of the per-user listings in
order, with one listing call and one user resolution per username. -/
theorem enumUsers_eq (env : GlEnv) : ∀ l, enumUsers env l =
    ((l.map fun u => env.userProjects (env.resolveUser u)).flatten,
     l.length, l.length) := by
  intro l
  induction l with
  | nil => rfl
  | cons u us ih => simp [enumUsers, ih]

/-- The trigger loop of the async `main` triggers each project in order
and collects exactly the accepted ones, in order. -/
theorem triggerPhase_eq (acc : AProject → Bool) : ∀ l,
    triggerPhase acc l = (l.map Event.trigger, l.filter acc) := by
  intro l
  induction l with
  | nil => rfl
  | cons p ps ih =>
    simp only [triggerPhase, ih, List.map_cons, List.filter_cons]

/-! ## Claim theorems: enumeration and pipelined ordering -/

/-- C8: for a target configured with group names and user names,
`gl_get_projects` makes one project-listing call per group name, one
user resolution plus one listing call per user name, and returns the
concatenation of all returned lists — group results first, then user
results, without deduplication — so the result length is the sum of the
lengths of the returned lists. -/
theorem enumeration_calls_and_concat (env : GlEnv) (gs us : String) :
    glGetProjects env (some gs) (some us) =
      (((pySplit gs).map env.groupProjects).flatten ++
        ((pySplit us).map fun u =>
          env.userProjects (env.resolveUser u)).flatten,
       ⟨(pySplit gs).length + (pySplit us).length, (pySplit us).length⟩) ∧
    (glGetProjects env (some gs) (some us)).1.length =
      (((pySplit gs).map env.groupProjects).map List.length).sum +
        ((((pySplit us).map fun u =>
          env.userProjects (env.resolveUser u)).map List.length)).sum := by
  constructor
  · simp [glGetProjects, enumGroups_eq, enumUsers_eq]
  · simp [glGetProjects, enumGroups_eq, enumUsers_eq, List.length_flatten]

/-- C8, glbackup.py side: at a target configured with a group and a
user, `gl_get_projects` of gbackup.py returns the claimed concatenation
with the claimed call counts, but `get_projects` of glbackup.py raises
`AttributeError` in the user branch (the `[0]` index on the
user-resolution result is missing), so the per-user project-listing
call never happens and no list is returned. -/
theorem glbackup_user_branch_attribute_error :
    glbackupGetProjects envDemo (some "acme") (some "alice") =
      .attributeError ∧
    glGetProjects envDemo (some "acme") (some "alice") =
      ([p1, p2], ⟨2, 1⟩) := by
  decide

/-- C9: the pipelined `main` first triggers an export for every project
in non-increasing repository-size order, then downloads, in
non-decreasing size order, exactly the projects whose trigger was
accepted — every trigger event precedes every download event. -/
theorem pipelined_trigger_then_download (acc : AProject → Bool)
    (projects : List AProject) :
    asyncMain acc projects =
      (sortDescBySize projects).map Event.trigger ++
        (downloadOrder acc projects).map Event.download ∧
    List.Sorted sizeGE (sortDescBySize projects) ∧
    (sortDescBySize projects).Perm projects ∧
    List.Sorted (fun a b => a.repositorySize ≤ b.repositorySize)
      (downloadOrder acc projects) ∧
    (downloadOrder acc projects).Perm (projects.filter acc) ∧
    ∀ p ∈ downloadOrder acc projects, acc p = true := by
  refine ⟨?_, ?_, ?_, ?_, ?_, ?_⟩
  · rw [asyncMain, triggerPhase_eq, downloadOrder]
  · exact List.sorted_insertionSort sizeGE projects
  · exact List.perm_insertionSort sizeGE projects
  · rw [downloadOrder, List.Sorted, List.pairwise_reverse]
    exact (List.sorted_insertionSort sizeGE projects).filter acc
  · rw [downloadOrder]
    exact (List.reverse_perm _).trans
      ((List.perm_insertionSort sizeGE projects).filter acc)
  · intro p hp
    rw [downloadOrder, List.mem_reverse] at hp
    exact List.of_mem_filter hp

/-- Witness for C9 at a concrete three-project list with one rejected
trigger: the trace decomposes into triggers then downloads, and the
accepted mid-sized project is in the download phase. -/
theorem pipelined_trigger_then_download_witness :
    asyncMain accNot2 aps =
      (sortDescBySize aps).map Event.trigger ++
        (downloadOrder accNot2 aps).map Event.download ∧
    accNot2 ap3 = true := by
  have h := pipelined_trigger_then_download accNot2 aps
  exact ⟨h.1, h.2.2.2.2.2 ap3 (by decide)⟩

end GBackup
